import Mathlib

/-
Verification development for the sweetnothings peer-to-peer flood-broadcast
messenger. The Go source is shallowly embedded: the dedup cache, the peer
registry, the broadcaster, the dialer and the inbound serve loop become pure
Lean functions over explicit state, with Go channel operations modelled by an
explicit per-channel state (receiver waiting, buffered slots). Machine maps
become association lists; nondeterministic outcomes of the network (connect
success, encode failure) become explicit outcome parameters.
-/

/-- Message model, from the SweetNothing struct: id, origin address, body,
timestamp. Time instants are abstracted to naturals. -/
structure SweetNothing where
  ID : String
  Addr : String
  Body : String
  Timestamp : Nat
  deriving Repr, DecidableEq

/-- State of the global seenIds map. Only the value true is ever stored in the
Go map, so the state is the set (list, no duplicates required) of keys that
map to true. -/
abbrev SeenIds := List String

/-- SeenId, from the source: under the mutex it reads ok from the map (false
when absent), stores true under the id, and returns the old value. The pair is
the returned bool together with the updated map state. -/
def SeenId (id : String) (s : SeenIds) : Bool × SeenIds :=
  let ok := s.contains id
  (ok, if s.contains id then s else id :: s)

/-- Outbound delivery channel handle: the identity given to it at allocation
and its buffer capacity, as fixed by the make call that created it. -/
structure Chan where
  cid : Nat
  capacity : Nat
  deriving Repr, DecidableEq

/-- Channel allocation in Peers.Add is make of an unbuffered channel, so the
capacity is zero; the fresh counter models allocation of a new channel value. -/
def mkChan (fresh : Nat) : Chan :=
  { cid := fresh, capacity := 0 }

/-- Peer registry state: the channels map keyed by address, plus the allocation
counter supplying identities for newly made channels. -/
structure Peers where
  channels : List (String × Chan)
  fresh : Nat
  deriving Repr, DecidableEq

/-- Peers.Add, from the source: under the write lock, when the address is
already present return nil and change nothing; otherwise make a fresh channel,
insert it under the address and return it. -/
def Peers.Add (p : Peers) (addr : String) : Option Chan × Peers :=
  match p.channels.lookup addr with
  | some _ => (none, p)
  | none =>
    (some (mkChan p.fresh),
     { channels := (addr, mkChan p.fresh) :: p.channels, fresh := p.fresh + 1 })

/-- Peers.Remove, from the source: under the write lock, delete the entry for
the address unconditionally. -/
def Peers.Remove (p : Peers) (addr : String) : Peers :=
  { p with channels := p.channels.filter (fun e => e.1 != addr) }

/-- Result type of the registry snapshot. -/
abbrev ChanList := List Chan

/-- Peers.List, from the source: under the read lock, copy out the send-side
handles of every registered peer. -/
def Peers.List (p : Peers) : ChanList :=
  p.channels.map Prod.snd

/-- Runtime state of one Go channel: whether a receiver is currently blocked
waiting on it, and the messages sitting in its buffer. -/
structure ChanState where
  receiverReady : Bool
  queued : List SweetNothing
  deriving Repr, DecidableEq

/-- A nonblocking send (select with a default branch) can go through exactly
when a receiver is waiting or the buffer has a free slot. -/
def sendReady (c : Chan) (cs : ChanState) : Bool :=
  cs.receiverReady || decide (cs.queued.length < c.capacity)

/-- Semantics of the select-with-default send used by broadcast: hand the
message to a waiting receiver, else buffer it when capacity allows, else
report failure and leave the channel untouched. -/
def tryEnqueue (m : SweetNothing) (c : Chan) (cs : ChanState) : Bool × ChanState :=
  if cs.receiverReady then
    (true, { cs with receiverReady := false })
  else if cs.queued.length < c.capacity then
    (true, { cs with queued := cs.queued ++ [m] })
  else
    (false, cs)

/-- First claim: SeenId returns the previous presence of the id, records the
id before returning, and any repeated call answers true. Together: false on
the first call for an id, true on every subsequent call, and the id is present
in the cache after any call. -/
theorem claim_C1_seenId_check_and_mark (id : String) (s : SeenIds) :
    (SeenId id s).1 = s.contains id ∧
    (SeenId id s).2.contains id = true ∧
    (SeenId id (SeenId id s).2).1 = true := by
  refine ⟨rfl, ?_, ?_⟩ <;> simp only [SeenId] <;>
    by_cases h : id ∈ s <;> simp [h]

/-- Registry well-formedness: at most one entry per address (the keys are
pairwise distinct) and every registered channel was allocated strictly below
the allocation counter. -/
def Peers.WF (p : Peers) : Prop :=
  (p.channels.map Prod.fst).Nodup ∧ ∀ e ∈ p.channels, e.2.cid < p.fresh

/-- A straight run of n Add calls for one address with no intervening Remove,
collecting the handle each call returns. -/
def addSeq (p : Peers) (addr : String) : Nat → List (Option Chan) × Peers
  | 0 => ([], p)
  | n + 1 =>
    let r := p.Add addr
    let rest := addSeq r.2 addr n
    (r.1 :: rest.1, rest.2)

/-- An address looks up to nothing exactly when it is absent from the key
column of the association list. -/
theorem lookup_none_iff_not_mem_keys (l : List (String × Chan)) (a : String) :
    l.lookup a = none ↔ a ∉ l.map Prod.fst := by
  induction l with
  | nil => simp
  | cons e t ih =>
    obtain ⟨k, b⟩ := e
    by_cases hk : a = k
    · subst hk; simp [List.lookup]
    · simp [List.lookup, hk, ih, beq_false_of_ne hk]

/-- Once the address is present, every further Add is a no-op returning nil. -/
theorem addSeq_of_present (addr : String) (n : Nat) (p : Peers) (c : Chan)
    (h : p.channels.lookup addr = some c) :
    addSeq p addr n = (List.replicate n none, p) := by
  induction n with
  | zero => simp [addSeq]
  | succ k ih => simp [addSeq, Peers.Add, h, ih, List.replicate_succ]

/-- Third claim: Add on a present address returns nil and changes nothing; on
an absent address it allocates a channel unseen by every registered entry,
inserts it under the address and returns it; well-formedness (one entry per
address) is preserved; and in a run of Add calls for one address exactly the
first receives a handle. -/
theorem claim_C3_peers_add_at_most_one_owner (p : Peers) (addr : String) (n : Nat)
    (hwf : p.WF) :
    (∀ c, p.channels.lookup addr = some c → p.Add addr = (none, p)) ∧
    (p.channels.lookup addr = none →
      (p.Add addr).1 = some (mkChan p.fresh) ∧
      (p.Add addr).2.channels.lookup addr = some (mkChan p.fresh) ∧
      ∀ e ∈ p.channels, e.2.cid ≠ (mkChan p.fresh).cid) ∧
    Peers.WF (p.Add addr).2 ∧
    (p.channels.lookup addr = none →
      (addSeq p addr (n + 1)).1 = some (mkChan p.fresh) :: List.replicate n none) := by
  refine ⟨?_, ?_, ?_, ?_⟩
  · intro c h
    simp [Peers.Add, h]
  · intro h
    refine ⟨by simp [Peers.Add, h], by simp [Peers.Add, h, List.lookup], ?_⟩
    intro e he
    have := hwf.2 e he
    simp only [mkChan]
    omega
  · rcases hp : p.channels.lookup addr with _ | c
    · constructor
      · simp only [Peers.Add, hp, List.map_cons]
        exact List.Nodup.cons ((lookup_none_iff_not_mem_keys _ _).mp hp) hwf.1
      · intro e he
        simp only [Peers.Add, hp] at he
        rcases List.mem_cons.mp he with h1 | h2
        · subst h1; simp [mkChan, Peers.Add, hp]
        · have := hwf.2 e h2
          simp only [Peers.Add, hp]
          omega
    · simpa [Peers.Add, hp] using hwf
  · intro h
    have hstep : p.Add addr =
        (some (mkChan p.fresh),
         { channels := (addr, mkChan p.fresh) :: p.channels, fresh := p.fresh + 1 }) := by
      simp [Peers.Add, h]
    have hpresent :
        ((p.Add addr).2).channels.lookup addr = some (mkChan p.fresh) := by
      simp [hstep, List.lookup]
    have hrest := addSeq_of_present addr n
      { channels := (addr, mkChan p.fresh) :: p.channels, fresh := p.fresh + 1 }
      (mkChan p.fresh) (by simp [List.lookup])
    simp [addSeq, hstep, hrest]

/-- Small concrete fixtures used by the witnesses. -/
def msg0 : SweetNothing :=
  { ID := "m1", Addr := "10.0.0.1:9000", Body := "hi", Timestamp := 0 }

/-- An empty registry with the allocation counter at zero. -/
def peers0 : Peers := { channels := [], fresh := 0 }

/-- Witness for the third claim at the empty registry: the first of three Add
calls for one address receives the handle, the other two receive nil. -/
theorem claim_C3_witness :
    Peers.WF peers0 ∧
    (addSeq peers0 "10.0.0.2:9000" 3).1 = some (mkChan 0) :: List.replicate 2 none := by
  have hwf : Peers.WF peers0 := ⟨by simp [peers0], by simp [peers0]⟩
  exact ⟨hwf,
    (claim_C3_peers_add_at_most_one_owner peers0 "10.0.0.2:9000" 2 hwf).2.2.2 rfl⟩

/-- Ninth claim: every channel Add creates is unbuffered (capacity zero), and
a nonblocking enqueue on a capacity-zero channel goes through exactly when the
receiving Dialer is already waiting; when the receiver is busy the message is
dropped and the channel state is untouched. -/
theorem claim_C9_unbuffered_channels (p : Peers) (addr : String)
    (m : SweetNothing) (cs : ChanState) :
    (∀ c, (p.Add addr).1 = some c → c.capacity = 0) ∧
    ∀ c : Chan, c.capacity = 0 →
      (tryEnqueue m c cs).1 = cs.receiverReady ∧
      (cs.receiverReady = false → tryEnqueue m c cs = (false, cs)) := by
  constructor
  · intro c h
    rcases hp : p.channels.lookup addr with _ | d
    · simp only [Peers.Add, hp] at h
      cases h
      rfl
    · simp [Peers.Add, hp] at h
  · intro c hc
    constructor
    · rcases hr : cs.receiverReady <;> simp [tryEnqueue, hr, hc]
    · intro hr
      simp [tryEnqueue, hr, hc]

/-- Witness for the ninth claim: the channel handed out by the first Add has
capacity zero, and an enqueue toward it with no waiting receiver drops the
message. -/
theorem claim_C9_witness :
    (mkChan 0).capacity = 0 ∧
    tryEnqueue msg0 (mkChan 0) { receiverReady := false, queued := [] } =
      (false, { receiverReady := false, queued := [] }) := by
  refine ⟨?_, ?_⟩
  · exact (claim_C9_unbuffered_channels peers0 "10.0.0.2:9000" msg0
      { receiverReady := false, queued := [] }).1 (mkChan 0) rfl
  · exact ((claim_C9_unbuffered_channels peers0 "10.0.0.2:9000" msg0
      { receiverReady := false, queued := [] }).2 (mkChan 0) rfl).2 rfl

/-- Runtime state of every channel, indexed by channel identity. -/
abbrev ChanStates := Nat → ChanState

/-- Pointwise update of the channel-state table. -/
def updateCS (cst : ChanStates) (i : Nat) (cs : ChanState) : ChanStates :=
  fun j => if j = i then cs else cst j

/-- Process-wide state of one node: its peer registry, its seen-id cache and
the runtime state of the channels. -/
structure NodeState where
  peers : Peers
  seen : SeenIds
  chanStates : ChanStates

/-- Body of the broadcast loop: walk the snapshot and perform one
select-with-default send per handle, recording for each handle whether the
message was accepted. -/
def broadcastChans (w : SweetNothing) (cs : ChanList) (cst : ChanStates) :
    ChanStates × List (Nat × Bool) :=
  match cs with
  | [] => (cst, [])
  | c :: rest =>
    let r := tryEnqueue w c (cst c.cid)
    let rec2 := broadcastChans w rest (updateCS cst c.cid r.2)
    (rec2.1, (c.cid, r.1) :: rec2.2)

/-- Go broadcast, from the source: snapshot the registry with Peers.List and
attempt one nonblocking send per handle. Registry and dedup cache are not
touched. -/
def broadcast (w : SweetNothing) (st : NodeState) : NodeState × List (Nat × Bool) :=
  let r := broadcastChans w st.peers.List st.chanStates
  ({ st with chanStates := r.1 }, r.2)

/-- A nonblocking send reports success exactly when the channel was ready. -/
theorem tryEnqueue_fst (m : SweetNothing) (c : Chan) (cs : ChanState) :
    (tryEnqueue m c cs).1 = sendReady c cs := by
  rcases hr : cs.receiverReady <;> by_cases h : cs.queued.length < c.capacity <;>
    simp [tryEnqueue, sendReady, hr, h]

/-- With pairwise distinct channel identities, the attempt record of the
broadcast walk is one entry per handle, succeeding exactly on the handles
whose channel was ready in the initial channel-state table. -/
theorem broadcastChans_attempts (w : SweetNothing) (cs : ChanList) (cst : ChanStates)
    (h : (cs.map Chan.cid).Nodup) :
    (broadcastChans w cs cst).2 = cs.map fun c => (c.cid, sendReady c (cst c.cid)) := by
  induction cs generalizing cst with
  | nil => rfl
  | cons c rest ih =>
    simp only [List.map_cons, List.nodup_cons] at h
    simp only [broadcastChans, List.map_cons, List.cons.injEq]
    refine ⟨by rw [tryEnqueue_fst], ?_⟩
    rw [ih _ h.2]
    refine List.map_congr_left ?_
    intro d hd
    have hne : d.cid ≠ c.cid := by
      intro he
      exact h.1 (he ▸ List.mem_map_of_mem Chan.cid hd)
    simp [updateCS, hne]

/-- Channels whose identity is outside the snapshot are never touched by the
broadcast walk. -/
theorem broadcastChans_untouched (w : SweetNothing) (cs : ChanList) (cst : ChanStates)
    (i : Nat) (h : i ∉ cs.map Chan.cid) :
    (broadcastChans w cs cst).1 i = cst i := by
  induction cs generalizing cst with
  | nil => rfl
  | cons c rest ih =>
    simp only [List.map_cons, List.mem_cons, not_or] at h
    simp only [broadcastChans]
    rw [ih _ (by exact h.2)]
    simp [updateCS, h.1]

/-- Fourth claim: broadcast leaves the registry and the dedup cache unchanged,
performs exactly one nonblocking enqueue attempt per snapshot handle,
enqueues exactly where the channel is immediately ready and drops the message
for every other peer, and does not touch channels outside the snapshot. -/
theorem claim_C4_broadcast_nonblocking_fanout (w : SweetNothing) (st : NodeState)
    (h : (st.peers.List.map Chan.cid).Nodup) :
    (broadcast w st).1.peers = st.peers ∧
    (broadcast w st).1.seen = st.seen ∧
    (broadcast w st).2 =
      st.peers.List.map (fun c => (c.cid, sendReady c (st.chanStates c.cid))) ∧
    ∀ i, i ∉ st.peers.List.map Chan.cid → (broadcast w st).1.chanStates i = st.chanStates i := by
  refine ⟨rfl, rfl, broadcastChans_attempts w _ _ h, ?_⟩
  intro i hi
  exact broadcastChans_untouched w _ _ i hi

/-- Fixture for the broadcast witness: two registered peers with distinct
channels, the first with its Dialer waiting, the second busy. -/
def node4 : NodeState :=
  { peers :=
      { channels :=
          [("10.0.0.2:9000", { cid := 0, capacity := 0 }),
           ("10.0.0.3:9000", { cid := 1, capacity := 0 })],
        fresh := 2 },
    seen := [],
    chanStates := fun i =>
      if i = 0 then { receiverReady := true, queued := [] }
      else { receiverReady := false, queued := [] } }

/-- Witness for the fourth claim: on the two-peer fixture the broadcast keeps
registry and cache intact, delivers to the ready peer and drops for the busy
one. -/
theorem claim_C4_witness :
    (broadcast msg0 node4).1.peers = node4.peers ∧
    (broadcast msg0 node4).1.seen = node4.seen ∧
    (broadcast msg0 node4).2 = [(0, true), (1, false)] := by
  have h := claim_C4_broadcast_nonblocking_fanout msg0 node4 (by decide)
  exact ⟨h.1, h.2.1, by rw [h.2.2.1]; decide⟩

/-- Observable effects of one iteration of the inbound serve loop. -/
structure ServeEffects where
  displayed : List (String × String)
  broadcasted : List SweetNothing
  dialed : List String
  deriving Repr, DecidableEq

/-- No observable effect: the message was discarded. -/
def noEffects : ServeEffects :=
  { displayed := [], broadcasted := [], dialed := [] }

/-- One iteration of the serveIncoming loop body on an already decoded
message: mark the id seen; when it was seen already, discard; otherwise print
the origin and body, broadcast the message onward and spawn a dial toward the
origin address. -/
def serveStep (w : SweetNothing) (st : NodeState) : NodeState × ServeEffects :=
  let r := SeenId w.ID st.seen
  if r.1 then
    ({ st with seen := r.2 }, noEffects)
  else
    let b := broadcast w { st with seen := r.2 }
    (b.1, { displayed := [(w.Addr, w.Body)], broadcasted := [w], dialed := [w.Addr] })

/-- One JSON object on the wire: each of the four struct fields may be present
or absent. -/
structure WireObj where
  idField : Option String
  addrField : Option String
  bodyField : Option String
  timestampField : Option Nat
  deriving Repr, DecidableEq

/-- Behaviour of Decode into an existing struct value: a field present in the
object overwrites, an absent field keeps the value the struct already held. -/
def decodeInto (obj : WireObj) (prev : SweetNothing) : SweetNothing :=
  { ID := obj.idField.getD prev.ID
    Addr := obj.addrField.getD prev.Addr
    Body := obj.bodyField.getD prev.Body
    Timestamp := obj.timestampField.getD prev.Timestamp }

/-- Zero value of the SweetNothing struct, the initial content of the whisper
variable declared outside the loop. -/
def zeroNothing : SweetNothing :=
  { ID := "", Addr := "", Body := "", Timestamp := 0 }

/-- The serveIncoming loop over the decoded stream, threading the single
reused whisper variable from one decode to the next. -/
def serveLoop (stream : List WireObj) (whisper : SweetNothing) (st : NodeState) :
    NodeState × List ServeEffects :=
  match stream with
  | [] => (st, [])
  | obj :: rest =>
    let w := decodeInto obj whisper
    let r := serveStep w st
    let rest2 := serveLoop rest w r.1
    (rest2.1, r.2 :: rest2.2)

/-- serveIncoming, from the source: run the decode loop starting from the
zero-valued whisper variable; the loop ends when the stream does. -/
def serveIncoming (stream : List WireObj) (st : NodeState) : NodeState × List ServeEffects :=
  serveLoop stream zeroNothing st

/-- Every decoded message produces exactly one loop iteration: the loop
continues to the next decode after both the discard and the deliver branch. -/
theorem serveLoop_length (stream : List WireObj) (whisper : SweetNothing) (st : NodeState) :
    (serveLoop stream whisper st).2.length = stream.length := by
  induction stream generalizing whisper st with
  | nil => rfl
  | cons o t ih => simp [serveLoop, ih]

/-- Fifth claim: when the id was already seen the loop body discards the
message with no display, no re-broadcast and no re-dial, leaving the node
state untouched; when it is new the body displays it, broadcasts it and
triggers a dial toward the origin address; and in both cases the loop goes on
to the next decode, one iteration per decoded message. -/
theorem claim_C5_serve_step_dedup_gate (w : SweetNothing) (st : NodeState)
    (stream : List WireObj) (whisper : SweetNothing) :
    ((SeenId w.ID st.seen).1 = true → serveStep w st = (st, noEffects)) ∧
    ((SeenId w.ID st.seen).1 = false →
      (serveStep w st).2 =
        { displayed := [(w.Addr, w.Body)], broadcasted := [w], dialed := [w.Addr] } ∧
      (serveStep w st).1 = (broadcast w { st with seen := w.ID :: st.seen }).1) ∧
    (serveLoop stream whisper st).2.length = stream.length := by
  refine ⟨?_, ?_, serveLoop_length stream whisper st⟩
  · intro h
    have h2 : w.ID ∈ st.seen := by simpa [SeenId] using h
    simp [serveStep, SeenId, h2]
  · intro h
    have h2 : w.ID ∉ st.seen := by simpa [SeenId] using h
    constructor <;> simp [serveStep, SeenId, h2]

/-- Fixture for the serve witnesses: empty registry, the id of msg0 already
seen. -/
def node5 : NodeState :=
  { peers := peers0, seen := ["m1"],
    chanStates := fun _ => { receiverReady := false, queued := [] } }

/-- Witness for the fifth claim: with the id of msg0 already cached the loop
body is a pure discard, and a two-object stream yields two iterations. -/
theorem claim_C5_witness :
    serveStep msg0 node5 = (node5, noEffects) ∧
    (serveLoop [⟨some "m1", some "a", some "x", some 0⟩,
      ⟨some "m2", some "a", some "y", some 1⟩] zeroNothing node5).2.length = 2 := by
  have h := claim_C5_serve_step_dedup_gate msg0 node5
    [⟨some "m1", some "a", some "x", some 0⟩, ⟨some "m2", some "a", some "y", some 1⟩]
    zeroNothing
  exact ⟨h.1 (by decide), h.2.2⟩

/-- Wire object carrying every field of msg0. -/
def obj10a : WireObj :=
  { idField := some "m1", addrField := some "10.0.0.1:9000",
    bodyField := some "hi", timestampField := some 0 }

/-- Wire object with a fresh body and timestamp but no id field. -/
def obj10b : WireObj :=
  { idField := none, addrField := some "10.0.0.1:9000",
    bodyField := some "bye", timestampField := some 1 }

/-- Fixture node for the decoder-inheritance scenario: nothing seen yet. -/
def node10 : NodeState :=
  { peers := peers0, seen := [],
    chanStates := fun _ => { receiverReady := false, queued := [] } }

/-- Tenth claim: decoding into the reused record keeps the previous value of
any omitted field; concretely, on a stream whose second object has a new body
but omits the id, the second message inherits the first id and is discarded
as already seen even though its body is new. -/
theorem claim_C10_decoder_field_inheritance (obj : WireObj) (prev : SweetNothing)
    (h : obj.idField = none) :
    (decodeInto obj prev).ID = prev.ID ∧
    (decodeInto obj10b (decodeInto obj10a zeroNothing)).ID = "m1" ∧
    (decodeInto obj10b (decodeInto obj10a zeroNothing)).Body = "bye" ∧
    (serveIncoming [obj10a, obj10b] node10).2 =
      [{ displayed := [("10.0.0.1:9000", "hi")],
         broadcasted := [decodeInto obj10a zeroNothing],
         dialed := ["10.0.0.1:9000"] },
       noEffects] := by
  refine ⟨by simp [decodeInto, h], by decide, by decide, by decide⟩

/-- Witness for the tenth claim at the concrete second wire object. -/
theorem claim_C10_witness :
    obj10b.idField = none ∧
    (decodeInto obj10b (decodeInto obj10a zeroNothing)).ID = "m1" := by
  exact ⟨rfl, (claim_C10_decoder_field_inheritance obj10b msg0 rfl).2.1⟩

/-- Outcome of the world interactions inside one dial call: the connect
fails, or the connection works until an encode error, or the drain loop ends
with the channel; the list carries the messages encoded onto the wire before
the loop ended. -/
inductive DialOutcome where
  | connectFail : DialOutcome
  | encodeFail : List SweetNothing → DialOutcome
  | chanClosed : List SweetNothing → DialOutcome
  deriving Repr, DecidableEq

/-- Trace of one dial call: which registry operations ran, whether a
transport connection was opened, and what reached the wire. -/
structure DialTrace where
  addCalled : Bool
  removeCalled : Bool
  connected : Bool
  wire : List SweetNothing
  deriving Repr, DecidableEq

/-- The dial task, from the source: a self-address is an immediate no-op; a
nil handle from Add means another task owns the peer, exit with the registry
as Add left it; otherwise the deferred Remove runs on every further exit
path, whether the connect failed, an encode failed mid-drain, or the drain
loop ended with its channel. -/
def dial (localAddr addr : String) (p : Peers) (oc : DialOutcome) : Peers × DialTrace :=
  if addr == localAddr then
    (p, { addCalled := false, removeCalled := false, connected := false, wire := [] })
  else
    match p.Add addr with
    | (none, p2) =>
      (p2, { addCalled := true, removeCalled := false, connected := false, wire := [] })
    | (some _, p2) =>
      match oc with
      | DialOutcome.connectFail =>
        (p2.Remove addr,
         { addCalled := true, removeCalled := true, connected := false, wire := [] })
      | DialOutcome.encodeFail sent =>
        (p2.Remove addr,
         { addCalled := true, removeCalled := true, connected := true, wire := sent })
      | DialOutcome.chanClosed sent =>
        (p2.Remove addr,
         { addCalled := true, removeCalled := true, connected := true, wire := sent })

/-- Filtering an address out of the association list makes it unfindable. -/
theorem lookup_filter_self (l : List (String × Chan)) (a : String) :
    (l.filter (fun e => e.1 != a)).lookup a = none := by
  induction l with
  | nil => rfl
  | cons e t ih =>
    obtain ⟨k, b⟩ := e
    by_cases hk : k = a
    · subst hk
      simpa [List.filter_cons] using ih
    · have hcond : (k != a) = true := by simp [bne, beq_false_of_ne hk]
      simp only [List.filter_cons]
      simp [hcond, List.lookup, beq_false_of_ne (Ne.symm hk), ih]

/-- Filtering one address out leaves the lookup of every other address
alone. -/
theorem lookup_filter_other (l : List (String × Chan)) (a addr : String) (h : a ≠ addr) :
    (l.filter (fun e => e.1 != addr)).lookup a = l.lookup a := by
  induction l with
  | nil => rfl
  | cons e t ih =>
    obtain ⟨k, b⟩ := e
    by_cases hk : k = addr
    · subst hk
      simp [List.filter_cons, List.lookup, beq_false_of_ne h, ih]
    · by_cases hak : a = k
      · subst hak
        simp [List.filter_cons, bne, beq_false_of_ne hk, List.lookup]
      · have hcond : (k != addr) = true := by simp [bne, beq_false_of_ne hk]
        simp only [List.filter_cons]
        simp [hcond, List.lookup, beq_false_of_ne hak, ih]

/-- When Add hands out no channel it also leaves the registry unchanged. -/
theorem Add_none_eq (p : Peers) (addr : String) (h : (p.Add addr).1 = none) :
    (p.Add addr).2 = p := by
  rcases hl : p.channels.lookup addr with _ | c
  · simp [Peers.Add, hl] at h
  · simp [Peers.Add, hl]

/-- Add changes the lookup of no address other than the one added. -/
theorem lookup_Add_other (p : Peers) (addr a : String) (h : a ≠ addr) :
    (p.Add addr).2.channels.lookup a = p.channels.lookup a := by
  rcases hl : p.channels.lookup addr with _ | c
  · simp [Peers.Add, hl, List.lookup, beq_false_of_ne h]
  · simp [Peers.Add, hl]

/-- Sixth claim: whenever dial obtained a handle for a non-local address, the
registry holds no entry for that address by the time dial returns, and the
Remove ran, on every exit path alike: connect failure, encode failure and
channel-drain termination. -/
theorem claim_C6_dial_always_removes (localAddr addr : String) (p : Peers)
    (oc : DialOutcome) (hne : addr ≠ localAddr) (hadd : (p.Add addr).1.isSome = true) :
    (dial localAddr addr p oc).1.channels.lookup addr = none ∧
    (dial localAddr addr p oc).2.removeCalled = true := by
  have h1 : (addr == localAddr) = false := beq_false_of_ne hne
  rcases hA : p.Add addr with ⟨r, p2⟩
  cases r with
  | none => rw [hA] at hadd; simp at hadd
  | some c =>
    cases oc <;>
      simp [dial, h1, hA, Peers.Remove, lookup_filter_self]

/-- Witness for the sixth claim: dialing a fresh peer from the empty registry
with the connect failing still leaves no entry behind. -/
theorem claim_C6_witness :
    (peers0.Add "10.0.0.2:9000").1.isSome = true ∧
    (dial "10.0.0.1:9000" "10.0.0.2:9000" peers0 DialOutcome.connectFail).1.channels.lookup
      "10.0.0.2:9000" = none := by
  exact ⟨rfl, (claim_C6_dial_always_removes "10.0.0.1:9000" "10.0.0.2:9000" peers0
    DialOutcome.connectFail (by decide) rfl).1⟩

/-- Seventh claim: dialing the local address is a complete no-op (no Add, no
Remove, no connection, registry untouched), and no dial whatsoever can make
the registry gain an entry for the local address. -/
theorem claim_C7_self_dial_noop (localAddr addr : String) (p : Peers) (oc : DialOutcome) :
    dial localAddr localAddr p oc =
      (p, { addCalled := false, removeCalled := false, connected := false, wire := [] }) ∧
    (p.channels.lookup localAddr = none →
      (dial localAddr addr p oc).1.channels.lookup localAddr = none) := by
  constructor
  · simp [dial]
  · intro h0
    by_cases he : addr = localAddr
    · subst he
      simp [dial, h0]
    · have h1 : (addr == localAddr) = false := beq_false_of_ne he
      rcases hA : p.Add addr with ⟨r, p2⟩
      have hp2 : (p.Add addr).2 = p2 := congrArg Prod.snd hA
      cases r with
      | none =>
        have hid : p2 = p := by
          rw [← hp2]
          exact Add_none_eq p addr (by rw [hA])
        simp [dial, h1, hA, hid, h0]
      | some c =>
        have h2 : p2.channels.lookup localAddr = none := by
          rw [← hp2, lookup_Add_other p addr localAddr (Ne.symm he)]
          exact h0
        cases oc <;>
          simp [dial, h1, hA, Peers.Remove, lookup_filter_other _ _ _ (Ne.symm he), h2]

/-- Witness for the seventh claim: a self-dial on the empty registry returns
it untouched with an all-false trace, and a dial toward a peer never creates
the local entry. -/
theorem claim_C7_witness :
    dial "10.0.0.1:9000" "10.0.0.1:9000" peers0 DialOutcome.connectFail =
      (peers0, { addCalled := false, removeCalled := false, connected := false, wire := [] }) ∧
    (dial "10.0.0.1:9000" "10.0.0.2:9000" peers0 DialOutcome.connectFail).1.channels.lookup
      "10.0.0.1:9000" = none := by
  exact ⟨(claim_C7_self_dial_noop "10.0.0.1:9000" "10.0.0.2:9000" peers0
      DialOutcome.connectFail).1,
    (claim_C7_self_dial_noop "10.0.0.1:9000" "10.0.0.2:9000" peers0
      DialOutcome.connectFail).2 rfl⟩

/-- Result of one Accept call: a connection, or an error, in which case the
connection value Accept returns alongside the error is nil. -/
inductive AcceptResult where
  | accepted : Nat → AcceptResult
  | acceptError : String → AcceptResult
  deriving Repr, DecidableEq

/-- Process-level outcome of one accept-loop iteration. -/
inductive AcceptIterOutcome where
  | processTerminates : AcceptIterOutcome
  | servesConn : Nat → AcceptIterOutcome
  deriving Repr, DecidableEq

/-- Fate of the serveIncoming task main spawns on the connection value the
accept iteration got: a real connection is served; the nil value left by a
failed Accept makes the first Decode read through a nil reader, and the
resulting unrecovered panic in that task terminates the whole process. -/
def spawnServe (con : Option Nat) : AcceptIterOutcome :=
  match con with
  | none => AcceptIterOutcome.processTerminates
  | some c => AcceptIterOutcome.servesConn c

/-- One iteration of the accept loop in main, from the current source: an
Accept error is logged, and serveIncoming is spawned unconditionally on the
returned connection value, which is nil exactly when Accept failed; the
iteration outcome is the process-level fate of that spawn. -/
def mainAcceptStep (r : AcceptResult) : AcceptIterOutcome × List String :=
  match r with
  | AcceptResult.accepted c => (spawnServe (some c), [])
  | AcceptResult.acceptError e =>
    (spawnServe none, [String.append "Error on accept: " e])

/-- One iteration of the accept loop of startListener in the earlier program
variant kept in the repository: there an Accept error exits the process
directly through the fatal logger. -/
def startListenerAcceptStep (r : AcceptResult) : AcceptIterOutcome × List String :=
  match r with
  | AcceptResult.accepted c => (AcceptIterOutcome.servesConn c, [])
  | AcceptResult.acceptError e =>
    (AcceptIterOutcome.processTerminates, [String.append "Error on accept: " e])

/-- Eighth claim: an error returned by Accept in the main listener loop is
fatal — the iteration spawns the serve task on the nil connection a failed
Accept returns, whose first Decode panics and terminates the process, and
the earlier listener variant exits directly — while a successful accept
serves only its own connection and a transport error inside one dial task
tears down only that connection, leaving the registry entry of every other
address untouched. -/
theorem claim_C8_accept_error_fatal (e : String) (c : Nat)
    (localAddr addr a : String) (p : Peers) (oc : DialOutcome) (h : a ≠ addr) :
    (mainAcceptStep (AcceptResult.acceptError e)).1 =
      AcceptIterOutcome.processTerminates ∧
    (startListenerAcceptStep (AcceptResult.acceptError e)).1 =
      AcceptIterOutcome.processTerminates ∧
    (mainAcceptStep (AcceptResult.accepted c)).1 = AcceptIterOutcome.servesConn c ∧
    (dial localAddr addr p oc).1.channels.lookup a = p.channels.lookup a := by
  refine ⟨rfl, rfl, rfl, ?_⟩
  by_cases he : addr = localAddr
  · subst he
    simp [dial]
  · have h1 : (addr == localAddr) = false := beq_false_of_ne he
    rcases hA : p.Add addr with ⟨r, p2⟩
    have hp2 : (p.Add addr).2 = p2 := congrArg Prod.snd hA
    cases r with
    | none =>
      have hid : p2 = p := by
        rw [← hp2]
        exact Add_none_eq p addr (by rw [hA])
      simp [dial, h1, hA, hid]
    | some ch =>
      have h2 : p2.channels.lookup a = p.channels.lookup a := by
        rw [← hp2]
        exact lookup_Add_other p addr a h
      cases oc <;>
        simp [dial, h1, hA, Peers.Remove, lookup_filter_other _ _ _ h, h2]

/-- Witness for the eighth claim at a concrete failed accept and a concrete
unrelated address. -/
theorem claim_C8_witness :
    (mainAcceptStep (AcceptResult.acceptError "use of closed network connection")).1 =
      AcceptIterOutcome.processTerminates ∧
    (dial "10.0.0.1:9000" "10.0.0.2:9000" peers0 DialOutcome.connectFail).1.channels.lookup
      "10.0.0.3:9000" = peers0.channels.lookup "10.0.0.3:9000" := by
  have h := claim_C8_accept_error_fatal "use of closed network connection" 0
    "10.0.0.1:9000" "10.0.0.2:9000" "10.0.0.3:9000" peers0 DialOutcome.connectFail
    (by decide)
  exact ⟨h.1, h.2.2.2⟩

/-- One node of the peer network: its address, the peers it currently floods
to (each Dialer assumed ready, so every nonblocking send is accepted), and
its seen-id cache. -/
structure NetNode where
  addr : String
  out : List String
  seen : SeenIds
  deriving Repr, DecidableEq

/-- One message in flight toward a node. -/
structure Packet where
  dst : String
  msg : SweetNothing
  deriving Repr, DecidableEq

/-- Global network state: the nodes, the packets in flight, and the log of
broadcast events (which node fanned out which message id). -/
structure Net where
  nodes : List NetNode
  queue : List Packet
  events : List (String × String)
  deriving Repr, DecidableEq

/-- Find the node owning an address. -/
def getNode (ns : List NetNode) (a : String) : Option NetNode :=
  ns.find? (fun n => n.addr == a)

/-- Replace the node owning an address. -/
def setNode (ns : List NetNode) (n : NetNode) : List NetNode :=
  ns.map (fun m => if m.addr == n.addr then n else m)

/-- Local origination, from startInputScanner: build the whisper and hand it
straight to broadcast. The id is not marked in the seen cache of the
originating node. -/
def originate (a : String) (m : SweetNothing) (net : Net) : Net :=
  match getNode net.nodes a with
  | none => net
  | some n =>
    { net with
      queue := net.queue ++ n.out.map (fun d => { dst := d, msg := m }),
      events := net.events ++ [(a, m.ID)] }

/-- Delivery of one packet, from serveIncoming: check-and-mark the id; when
already seen, drop; when new, surface it and broadcast it to the current
out-peers (the topology stays fixed, so the opportunistic dial changes
nothing). -/
def deliver (pkt : Packet) (net : Net) : Net :=
  match getNode net.nodes pkt.dst with
  | none => net
  | some n =>
    let r := SeenId pkt.msg.ID n.seen
    if r.1 then
      { net with nodes := setNode net.nodes { n with seen := r.2 } }
    else
      { net with
        nodes := setNode net.nodes { n with seen := r.2 },
        queue := net.queue ++ n.out.map (fun d => { dst := d, msg := pkt.msg }),
        events := net.events ++ [(pkt.dst, pkt.msg.ID)] }

/-- Run the network, delivering in-flight packets in order until the queue
empties or the fuel runs out. -/
def runNet (fuel : Nat) (net : Net) : Net :=
  match fuel with
  | 0 => net
  | f + 1 =>
    match net.queue with
    | [] => net
    | pkt :: rest => runNet f (deliver pkt { net with queue := rest })

/-- Number of broadcast fan-outs a node performed for one message id. -/
def broadcastCount (net : Net) (a : String) (id : String) : Nat :=
  (net.events.filter (fun e => e.1 == a && e.2 == id)).length

/-- Two-node cycle fixture: A and B each flood to the other, nothing seen. -/
def netAB : Net :=
  { nodes :=
      [{ addr := "10.0.0.1:9000", out := ["10.0.0.2:9000"], seen := [] },
       { addr := "10.0.0.2:9000", out := ["10.0.0.1:9000"], seen := [] }],
    queue := [], events := [] }

/-- Second claim, evaluated at the failing input: on the two-node cycle, A
originates msg0 and the flood comes back from B; because origination never
marks the id seen at the originator, A treats the echo as a new message,
surfaces it and broadcasts it a second time. The run terminates with A having
performed two broadcasts of the one message, against the claimed bound of
one per node. -/
theorem claim_C2_echo_rebroadcast_eval :
    (runNet 8 (originate "10.0.0.1:9000" msg0 netAB)).events =
      [("10.0.0.1:9000", "m1"), ("10.0.0.2:9000", "m1"), ("10.0.0.1:9000", "m1")] ∧
    broadcastCount (runNet 8 (originate "10.0.0.1:9000" msg0 netAB))
      "10.0.0.1:9000" "m1" = 2 ∧
    (runNet 8 (originate "10.0.0.1:9000" msg0 netAB)).queue = [] := by
  exact ⟨by decide, by decide, by decide⟩
